import Mathlib

/-!
# Search layer over the channel store (`store/searchlayer/channel_layer.go`)

A shallow embedding of `SearchChannelStore`, the wrapper that keeps the search
engines in step with the channel store.

* Go pointers (`*model.Channel`, `*model.AppError`, ...) are `Option`s; `none` is `nil`.
* A run of a wrapper method is a `Run`: what it returned (or that it stopped on a
  nil-pointer dereference), the state of the wrapped store afterwards, and the ordered
  trace of every call the method made on a collaborator (store, engines, root store, log).
* `go func() { engineCopy.IndexChannel(channel) ... }()` is recorded as the trace event
  `Event.IndexChannel`: the job handed to the engine.  When the job runs, and what the
  engine answers, is outside the method (the answer is only logged).
* The wrapped `store.ChannelStore` is an interface: its mutating methods are state
  transformers on an arbitrary state type `σ`, its query methods read `σ`.
* `model.CHANNEL_OPEN` is declared in package `model`; the functions take it as the
  parameter `CHANNEL_OPEN`.
-/

namespace searchlayer

/-! ## Data of package `model` (the fields this file reads) -/

/-- Modelled from the spec: the error value `model.AppError` of package `model`, which is
not among the sources.  The layer only tests it against `nil` and passes it on. -/
structure AppError where
  Id : String
  deriving DecidableEq

/-- Modelled from the spec: the record `model.Channel` of package `model`, which is not
among the sources, with the spec's four attributes under the names the code reads:
identifier `Id`, kind classifier `Type` (here `ChannelType`, `Type` being a reserved word;
the code compares it with `model.CHANNEL_OPEN`), soft-delete marker `DeleteAt` (zero means
not deleted; a signed integer, `int64` in package `model`, which the code tests with
`DeleteAt > 0`) and creator reference `CreatorId`. -/
structure Channel where
  Id : String
  ChannelType : String
  DeleteAt : Int
  CreatorId : String
  deriving DecidableEq

/-- Modelled from the spec: the membership `model.ChannelMember` of package `model`, the
association of a channel and a participant. -/
structure ChannelMember where
  ChannelId : String
  UserId : String
  deriving DecidableEq

/-- Modelled from the spec: the participant `model.User` of package `model`, with the
identifier the code reads. -/
structure User where
  Id : String
  deriving DecidableEq

/-- The `model.ChannelList` slice. -/
abbrev ChannelList := List Channel

/-! ## Collaborators -/

/-- One entry of `searchEngine.GetActiveEngines()`: a `searchengine.SearchEngineInterface`
value.  `handle` is the identity of the engine; the two flags are what
`IsIndexingEnabled()` and `IsAutocompletionEnabled()` answer when the loop reaches this
entry, `SearchChannels` is the engine's query. -/
structure SearchEngine where
  handle : Nat
  IsIndexingEnabled : Bool
  IsAutocompletionEnabled : Bool
  SearchChannels : String → String → List String × Option AppError

/-- The methods of the interface `store.ChannelStore` that the wrapper calls, with the
arguments and results the calls in the file fix, over a store state `σ`: the mutating
methods return the new state, the query methods `Get`, `GetChannelsByIds` and
`AutocompleteInTeam` read it. -/
structure ChannelStore (σ : Type) where
  Save : Option Channel → Int → σ → (Option Channel × Option AppError) × σ
  Update : Option Channel → σ → (Option Channel × Option AppError) × σ
  SaveMember : Option ChannelMember → σ → (Option ChannelMember × Option AppError) × σ
  RemoveMember : String → String → σ → Option AppError × σ
  CreateDirectChannel : Option User → Option User → σ → (Option Channel × Option AppError) × σ
  PermanentDeleteMembersByChannel : String → σ → Option AppError × σ
  PermanentDelete : String → σ → Option AppError × σ
  Get : String → Bool → σ → Option Channel × Option AppError
  GetChannelsByIds : List String → σ → List Channel × Option AppError
  AutocompleteInTeam : String → String → Bool → σ → Option ChannelList × Option AppError

/-- The `rootStore *SearchStore` as far as this file uses it: the list
`searchEngine.GetActiveEngines()` and `User().GetAllProfilesInChannel`, whose profiles
come in the order the `range` of `PermanentDeleteMembersByChannel` visits them.  Its
methods `indexUserFromID` and `indexUser` are recorded as calls (see `Event`). -/
structure SearchStore (σ : Type) where
  GetActiveEngines : List SearchEngine
  GetAllProfilesInChannel : String → Bool → σ → List User × Option AppError

/-- The receiver `c *SearchChannelStore`. -/
structure SearchChannelStore (σ : Type) where
  ChannelStore : ChannelStore σ
  rootStore : SearchStore σ

/-- A call made by a wrapper method on one of its collaborators, with its arguments.
`IndexChannel` and `DeleteChannel` are the jobs started with `go`; `indexUserFromID` and
`indexUser` are the root store's user re-index entry points; the `store*` events are calls
on the wrapped `ChannelStore` (and `User()` store); `mlogError` is `mlog.Error`. -/
inductive Event where
  | IndexChannel (engine : Nat) (channel : Channel)
  | DeleteChannel (engine : Nat) (channel : Channel)
  | indexUserFromID (userId : String)
  | indexUser (user : User)
  | SearchChannels (engine : Nat) (teamId term : String)
  | storeSave (channel : Option Channel) (maxChannels : Int)
  | storeUpdate (channel : Option Channel)
  | storeSaveMember (cm : Option ChannelMember)
  | storeRemoveMember (channelId userId : String)
  | storeCreateDirectChannel (user otherUser : Option User)
  | storePermanentDeleteMembersByChannel (channelId : String)
  | storePermanentDelete (channelId : String)
  | storeGet (channelId : String) (allowFromCache : Bool)
  | storeGetChannelsByIds (channelIds : List String)
  | storeAutocompleteInTeam (teamId term : String) (includeDeleted : Bool)
  | storeGetAllProfilesInChannel (channelId : String) (allowFromCache : Bool)
  | mlogError (msg : String)
  deriving DecidableEq

/-- An index action: a channel index/delete job or a user re-index. -/
def Event.isIndexAction : Event → Bool
  | .IndexChannel _ _ => true
  | .DeleteChannel _ _ => true
  | .indexUserFromID _ => true
  | .indexUser _ => true
  | _ => false

/-- A job on the channel index of some engine. -/
def Event.isChannelJob : Event → Bool
  | .IndexChannel _ _ => true
  | .DeleteChannel _ _ => true
  | _ => false

/-- The engine a channel job is handed to. -/
def Event.jobEngine : Event → Option Nat
  | .IndexChannel e _ => some e
  | .DeleteChannel e _ => some e
  | _ => none

/-- The outcome of running a method: `ret = none` when the run stopped on a nil-pointer
dereference, otherwise the returned values; `state` is the store state reached and
`trace` the calls made, oldest first. -/
structure Run (σ α : Type) where
  ret : Option α
  state : σ
  trace : List Event

/-! ## The methods -/

/-- The `for _, engine := range ...GetActiveEngines()` loop of `deleteChannelIndex`. -/
def deleteJobs (engines : List SearchEngine) (channel : Channel) : List Event :=
  match engines with
  | [] => []
  | engine :: rest =>
    if engine.IsIndexingEnabled then
      Event.DeleteChannel engine.handle channel :: deleteJobs rest channel
    else deleteJobs rest channel

/-- The `for _, engine := range ...GetActiveEngines()` loop of `indexChannel`. -/
def indexJobs (engines : List SearchEngine) (channel : Channel) : List Event :=
  match engines with
  | [] => []
  | engine :: rest =>
    if engine.IsIndexingEnabled then
      Event.IndexChannel engine.handle channel :: indexJobs rest channel
    else indexJobs rest channel

/-- Helper `deleteChannelIndex(channel)`: `none` is the nil dereference at `channel.Type`,
otherwise the jobs started. -/
def deleteChannelIndex {σ : Type} (CHANNEL_OPEN : String) (c : SearchChannelStore σ)
    (channel : Option Channel) : Option (List Event) :=
  match channel with
  | none => none
  | some ch =>
    if ch.ChannelType = CHANNEL_OPEN then some (deleteJobs c.rootStore.GetActiveEngines ch)
    else some []

/-- Helper `indexChannel(channel)`: `none` is the nil dereference at `channel.Type`,
otherwise the jobs started. -/
def indexChannel {σ : Type} (CHANNEL_OPEN : String) (c : SearchChannelStore σ)
    (channel : Option Channel) : Option (List Event) :=
  match channel with
  | none => none
  | some ch =>
    if ch.ChannelType = CHANNEL_OPEN then some (indexJobs c.rootStore.GetActiveEngines ch)
    else some []

/-- Method `Save(channel, maxChannels)`. -/
def Save {σ : Type} (CHANNEL_OPEN : String) (c : SearchChannelStore σ)
    (channel : Option Channel) (maxChannels : Int) (s : σ) :
    Run σ (Option Channel × Option AppError) :=
  match c.ChannelStore.Save channel maxChannels s with
  | ((newChannel, none), s1) =>
    match indexChannel CHANNEL_OPEN c newChannel with
    | none => ⟨none, s1, [Event.storeSave channel maxChannels]⟩
    | some jobs => ⟨some (newChannel, none), s1, Event.storeSave channel maxChannels :: jobs⟩
  | ((newChannel, some err), s1) =>
    ⟨some (newChannel, some err), s1, [Event.storeSave channel maxChannels]⟩

/-- Method `Update(channel)`. -/
def Update {σ : Type} (CHANNEL_OPEN : String) (c : SearchChannelStore σ)
    (channel : Option Channel) (s : σ) : Run σ (Option Channel × Option AppError) :=
  match c.ChannelStore.Update channel s with
  | ((updatedChannel, none), s1) =>
    match indexChannel CHANNEL_OPEN c updatedChannel with
    | none => ⟨none, s1, [Event.storeUpdate channel]⟩
    | some jobs => ⟨some (updatedChannel, none), s1, Event.storeUpdate channel :: jobs⟩
  | ((updatedChannel, some err), s1) =>
    ⟨some (updatedChannel, some err), s1, [Event.storeUpdate channel]⟩

/-- Method `SaveMember(cm)`.  The index step sits in the `err != nil` branch; it dereferences
`member` and then `channel`. -/
def SaveMember {σ : Type} (c : SearchChannelStore σ) (cm : Option ChannelMember) (s : σ) :
    Run σ (Option ChannelMember × Option AppError) :=
  match c.ChannelStore.SaveMember cm s with
  | ((member, none), s1) => ⟨some (member, none), s1, [Event.storeSaveMember cm]⟩
  | ((member, some err), s1) =>
    match member with
    | none => ⟨none, s1, [Event.storeSaveMember cm]⟩
    | some m =>
      match c.ChannelStore.Get m.ChannelId true s1 with
      | (_, some _) =>
        ⟨some (member, some err), s1,
          [Event.storeSaveMember cm, Event.storeGet m.ChannelId true,
           Event.mlogError "Encountered error indexing user in channel"]⟩
      | (none, none) =>
        ⟨none, s1, [Event.storeSaveMember cm, Event.storeGet m.ChannelId true]⟩
      | (some channel, none) =>
        ⟨some (member, some err), s1,
          [Event.storeSaveMember cm, Event.storeGet m.ChannelId true,
           Event.indexUserFromID channel.CreatorId]⟩

/-- Method `RemoveMember(channelId, userIdToRemove)`. -/
def RemoveMember {σ : Type} (c : SearchChannelStore σ) (channelId userIdToRemove : String)
    (s : σ) : Run σ (Option AppError) :=
  match c.ChannelStore.RemoveMember channelId userIdToRemove s with
  | (none, s1) =>
    ⟨some none, s1,
      [Event.storeRemoveMember channelId userIdToRemove, Event.indexUserFromID userIdToRemove]⟩
  | (some err, s1) => ⟨some (some err), s1, [Event.storeRemoveMember channelId userIdToRemove]⟩

/-- Method `CreateDirectChannel(user, otherUser)`. -/
def CreateDirectChannel {σ : Type} (c : SearchChannelStore σ) (user otherUser : Option User)
    (s : σ) : Run σ (Option Channel × Option AppError) :=
  match c.ChannelStore.CreateDirectChannel user otherUser s with
  | ((channel, none), s1) =>
    match user with
    | none => ⟨none, s1, [Event.storeCreateDirectChannel user otherUser]⟩
    | some u =>
      match otherUser with
      | none =>
        ⟨none, s1, [Event.storeCreateDirectChannel user otherUser, Event.indexUserFromID u.Id]⟩
      | some o =>
        ⟨some (channel, none), s1,
          [Event.storeCreateDirectChannel user otherUser, Event.indexUserFromID u.Id,
           Event.indexUserFromID o.Id]⟩
  | ((channel, some err), s1) =>
    ⟨some (channel, some err), s1, [Event.storeCreateDirectChannel user otherUser]⟩

/-- The `for _, ch := range channels` loop of `esAutocompleteChannels`, started with the
list built so far. -/
def appendChannels (channelList : ChannelList) (channels : List Channel)
    (includeDeleted : Bool) : ChannelList :=
  match channels with
  | [] => channelList
  | ch :: rest =>
    if ch.DeleteAt > 0 && !includeDeleted then appendChannels channelList rest includeDeleted
    else appendChannels (channelList ++ [ch]) rest includeDeleted

/-- Helper `esAutocompleteChannels(engine, teamId, term, includeDeleted)`: the returned
pair and the calls made.  It reads the store and leaves its state as it is. -/
def esAutocompleteChannels {σ : Type} (c : SearchChannelStore σ) (engine : SearchEngine)
    (teamId term : String) (includeDeleted : Bool) (s : σ) :
    (Option ChannelList × Option AppError) × List Event :=
  match engine.SearchChannels teamId term with
  | (_, some err) => ((none, some err), [Event.SearchChannels engine.handle teamId term])
  | (channelIds, none) =>
    if channelIds.length > 0 then
      match c.ChannelStore.GetChannelsByIds channelIds s with
      | (_, some err) =>
        ((none, some err),
          [Event.SearchChannels engine.handle teamId term, Event.storeGetChannelsByIds channelIds])
      | (channels, none) =>
        ((some (appendChannels [] channels includeDeleted), none),
          [Event.SearchChannels engine.handle teamId term, Event.storeGetChannelsByIds channelIds])
    else ((some [], none), [Event.SearchChannels engine.handle teamId term])

/-- The `mlog.Error` call of the loop of `AutocompleteInTeam`. -/
def autocompleteFailureLog : Event :=
  Event.mlogError
    "Encountered error on AutocompleteChannels through SearchEngine. Falling back to default autocompletion."

/-- The `for _, engine := range ...GetActiveEngines()` loop of `AutocompleteInTeam`, entered
with the current values of `channelList` and `err`: it yields `allFailed`, `channelList`,
`err` at loop exit and the calls made. -/
def autocompleteLoop {σ : Type} (c : SearchChannelStore σ) (engines : List SearchEngine)
    (teamId term : String) (includeDeleted : Bool) (s : σ)
    (channelList : Option ChannelList) (err : Option AppError) :
    (Bool × Option ChannelList × Option AppError) × List Event :=
  match engines with
  | [] => ((true, channelList, err), [])
  | engine :: rest =>
    if engine.IsAutocompletionEnabled then
      match esAutocompleteChannels c engine teamId term includeDeleted s with
      | ((channelList1, some err1), calls) =>
        let r := autocompleteLoop c rest teamId term includeDeleted s channelList1 (some err1)
        (r.1, calls ++ autocompleteFailureLog :: r.2)
      | ((channelList1, none), calls) => ((false, channelList1, none), calls)
    else autocompleteLoop c rest teamId term includeDeleted s channelList err

/-- Method `AutocompleteInTeam(teamId, term, includeDeleted)`. -/
def AutocompleteInTeam {σ : Type} (c : SearchChannelStore σ) (teamId term : String)
    (includeDeleted : Bool) (s : σ) : Run σ (Option ChannelList × Option AppError) :=
  match autocompleteLoop c c.rootStore.GetActiveEngines teamId term includeDeleted s none none with
  | ((true, _, _), calls) =>
    match c.ChannelStore.AutocompleteInTeam teamId term includeDeleted s with
    | (_, some err) =>
      ⟨some (none, some err), s, calls ++ [Event.storeAutocompleteInTeam teamId term includeDeleted]⟩
    | (channelList, none) =>
      ⟨some (channelList, none), s,
        calls ++ [Event.storeAutocompleteInTeam teamId term includeDeleted]⟩
  | ((false, channelList, err), calls) => ⟨some (channelList, err), s, calls⟩

/-- Method `PermanentDeleteMembersByChannel(channelId)`.  The `err` of the profile lookup is a
new variable of the inner block; the method returns the outer one. -/
def PermanentDeleteMembersByChannel {σ : Type} (c : SearchChannelStore σ) (channelId : String)
    (s : σ) : Run σ (Option AppError) :=
  match c.ChannelStore.PermanentDeleteMembersByChannel channelId s with
  | (none, s1) =>
    match c.rootStore.GetAllProfilesInChannel channelId false s1 with
    | (_, some _) =>
      ⟨some none, s1,
        [Event.storePermanentDeleteMembersByChannel channelId,
         Event.storeGetAllProfilesInChannel channelId false,
         Event.mlogError "Encountered error indexing users for channel"]⟩
    | (profiles, none) =>
      ⟨some none, s1,
        [Event.storePermanentDeleteMembersByChannel channelId,
         Event.storeGetAllProfilesInChannel channelId false] ++ profiles.map Event.indexUser⟩
  | (some err, s1) =>
    ⟨some (some err), s1, [Event.storePermanentDeleteMembersByChannel channelId]⟩

/-- The calls of `PermanentDelete` up to the underlying delete: the snapshot lookup, and
the log line when the lookup failed. -/
def lookupCalls (channelId : String) (channelErr : Option AppError) : List Event :=
  match channelErr with
  | none => [Event.storeGet channelId true]
  | some _ => [Event.storeGet channelId true, Event.mlogError "Encountered error deleting channel"]

/-- Method `PermanentDelete(channelId)`. -/
def PermanentDelete {σ : Type} (CHANNEL_OPEN : String) (c : SearchChannelStore σ)
    (channelId : String) (s : σ) : Run σ (Option AppError) :=
  match c.ChannelStore.Get channelId true s with
  | (channel, channelErr) =>
    match c.ChannelStore.PermanentDelete channelId s with
    | (none, s1) =>
      match deleteChannelIndex CHANNEL_OPEN c channel with
      | none =>
        ⟨none, s1, lookupCalls channelId channelErr ++ [Event.storePermanentDelete channelId]⟩
      | some jobs =>
        ⟨some none, s1,
          lookupCalls channelId channelErr ++ Event.storePermanentDelete channelId :: jobs⟩
    | (some err, s1) =>
      ⟨some (some err), s1,
        lookupCalls channelId channelErr ++ [Event.storePermanentDelete channelId]⟩

/-! ## Reading a trace -/

/-- The engines on which `SearchChannels` was invoked, in call order. -/
def searchedEngines (trace : List Event) : List Nat :=
  trace.filterMap fun ev =>
    match ev with
    | .SearchChannels e _ _ => some e
    | _ => none

/-- A call of the wrapped store's own `AutocompleteInTeam`. -/
def Event.isStoreAutocomplete : Event → Bool
  | .storeAutocompleteInTeam _ _ _ => true
  | _ => false

/-- The calls the loop of `AutocompleteInTeam` makes on engines whose attempts fail: for
each autocompletion-enabled engine, the calls of its attempt and then the log line. -/
def failedAttempts {σ : Type} (c : SearchChannelStore σ) (engines : List SearchEngine)
    (teamId term : String) (includeDeleted : Bool) (s : σ) : List Event :=
  match engines with
  | [] => []
  | engine :: rest =>
    if engine.IsAutocompletionEnabled then
      (esAutocompleteChannels c engine teamId term includeDeleted s).2 ++
        autocompleteFailureLog :: failedAttempts c rest teamId term includeDeleted s
    else failedAttempts c rest teamId term includeDeleted s

/-- The channel jobs of a trace that were handed to engine `h`. -/
def jobsFor (h : Nat) (trace : List Event) : List Event :=
  trace.filter fun ev => decide (ev.jobEngine = some h)

/-- The receiver with another list of active engines. -/
def SearchChannelStore.withEngines {σ : Type} (c : SearchChannelStore σ)
    (engines : List SearchEngine) : SearchChannelStore σ :=
  { c with rootStore := { c.rootStore with GetActiveEngines := engines } }

/-! ## A concrete store and engines to run the methods on -/

/-- An in-memory `ChannelStore`: the state is the list of stored channels.  `Get` fails
with a nil channel when no stored channel has the identifier; `PermanentDelete` removes
the channels with the identifier and succeeds. -/
def memStore : ChannelStore (List Channel) where
  Save := fun channel _ s =>
    match channel with
    | none => ((none, some ⟨"store.sql_channel.save.app_error"⟩), s)
    | some ch => ((some ch, none), s ++ [ch])
  Update := fun channel s =>
    match channel with
    | none => ((none, some ⟨"store.sql_channel.update.app_error"⟩), s)
    | some ch => ((some ch, none), s.map fun x => if x.Id = ch.Id then ch else x)
  SaveMember := fun cm s => ((cm, none), s)
  RemoveMember := fun _ _ s => (none, s)
  CreateDirectChannel := fun _ _ s =>
    ((none, some ⟨"store.sql_channel.save_direct_channel.app_error"⟩), s)
  PermanentDeleteMembersByChannel := fun _ s => (none, s)
  PermanentDelete := fun channelId s => (none, s.filter fun x => x.Id != channelId)
  Get := fun channelId _ s =>
    match s.find? fun x => x.Id == channelId with
    | some ch => (some ch, none)
    | none => (none, some ⟨"store.sql_channel.get.existing.app_error"⟩)
  GetChannelsByIds := fun channelIds s => (s.filter fun x => channelIds.contains x.Id, none)
  AutocompleteInTeam := fun _ _ includeDeleted s =>
    (some (s.filter fun x => includeDeleted || x.DeleteAt == 0), none)

/-- An engine with indexing and autocompletion on; its query answers `["c1", "c2"]`. -/
def engineA : SearchEngine := ⟨1, true, true, fun _ _ => (["c1", "c2"], none)⟩

/-- An engine with indexing off and autocompletion on; its query fails. -/
def engineB : SearchEngine :=
  ⟨2, false, true, fun _ _ => ([], some ⟨"ent.elasticsearch.search_channels.disabled"⟩)⟩

/-- An engine with indexing on and autocompletion off. -/
def engineC : SearchEngine := ⟨3, true, false, fun _ _ => (["c9"], none)⟩

/-- The layer over `memStore` with the given active engines. -/
def memLayer (engines : List SearchEngine) : SearchChannelStore (List Channel) :=
  ⟨memStore, ⟨engines, fun _ _ _ => ([], none)⟩⟩

/-- An open channel. -/
def townSquare : Channel := ⟨"c1", "O", 0, "u1"⟩

/-- A private channel. -/
def staffRoom : Channel := ⟨"c2", "P", 0, "u2"⟩

/-- The `memStore` whose own `AutocompleteInTeam` hands back the stored channels together
with an error. -/
def lossyStore : ChannelStore (List Channel) :=
  { memStore with
    AutocompleteInTeam := fun _ _ _ s =>
      (some s, some ⟨"store.sql_channel.autocomplete_in_team.app_error"⟩) }

/-- The `memStore` whose batch fetch `GetChannelsByIds` fails. -/
def fetchFailStore : ChannelStore (List Channel) :=
  { memStore with
    GetChannelsByIds := fun _ _ => ([], some ⟨"store.sql_channel.get_channels_by_ids.app_error"⟩) }

/-- The `memStore` whose `SaveMember` fails, handing back `member` with the error. -/
def memberFailStore (member : Option ChannelMember) : ChannelStore (List Channel) :=
  { memStore with
    SaveMember := fun _ s =>
      ((member, some ⟨"store.sql_channel.save_member.exists.app_error"⟩), s) }

/-- An open channel that was soft-deleted. -/
def archived : Channel := ⟨"c2", "O", 1570000000000, "u1"⟩

/-- An open channel whose `DeleteAt` is below zero. -/
def preEpoch : Channel := ⟨"c2", "O", -1, "u1"⟩

/-- A membership of `u7` in the channel `c1`. -/
def joinTownSquare : ChannelMember := ⟨"c1", "u7"⟩

/-- The layer over an arbitrary store with the given active engines. -/
def layerOver (store : ChannelStore (List Channel)) (engines : List SearchEngine) :
    SearchChannelStore (List Channel) :=
  ⟨store, ⟨engines, fun _ _ _ => ([], none)⟩⟩

/-! ## Lemmas on the fan-out loops -/

theorem indexJobs_eq_map (engines : List SearchEngine) (ch : Channel) :
    indexJobs engines ch =
      (engines.filter fun e => e.IsIndexingEnabled).map fun e => Event.IndexChannel e.handle ch := by
  induction engines with
  | nil => rfl
  | cons e rest ih =>
    cases h : e.IsIndexingEnabled <;> simp [indexJobs, h, ih]

theorem deleteJobs_eq_map (engines : List SearchEngine) (ch : Channel) :
    deleteJobs engines ch =
      (engines.filter fun e => e.IsIndexingEnabled).map fun e => Event.DeleteChannel e.handle ch := by
  induction engines with
  | nil => rfl
  | cons e rest ih =>
    cases h : e.IsIndexingEnabled <;> simp [deleteJobs, h, ih]

theorem jobsFor_indexJobs (h : Nat) (engines : List SearchEngine) (ch : Channel) :
    (jobsFor h (indexJobs engines ch)).length =
      (engines.filter fun e => e.IsIndexingEnabled && decide (e.handle = h)).length := by
  rw [indexJobs_eq_map, jobsFor, List.filter_map, List.length_map, List.filter_filter]
  congr 1
  apply List.filter_congr
  intro e _
  simp [Function.comp, Event.jobEngine, Bool.and_comm]

theorem jobsFor_deleteJobs (h : Nat) (engines : List SearchEngine) (ch : Channel) :
    (jobsFor h (deleteJobs engines ch)).length =
      (engines.filter fun e => e.IsIndexingEnabled && decide (e.handle = h)).length := by
  rw [deleteJobs_eq_map, jobsFor, List.filter_map, List.length_map, List.filter_filter]
  congr 1
  apply List.filter_congr
  intro e _
  simp [Function.comp, Event.jobEngine, Bool.and_comm]

/-! ## Index propagation on `Save`, `Update`, `PermanentDelete`, `RemoveMember` -/

/-- C2: when the store's `Save` (resp. `Update`) succeeds and the channel it returns is
open, the wrapper returns that channel with a nil error, and after the store call its
trace is exactly one `IndexChannel` job carrying the returned channel per
indexing-enabled entry of the active-engine list, in list order: for every engine `h`
the number of jobs handed to `h` is the number of indexing-enabled entries of `h` (none
for an engine that is only listed as disabled), and no `DeleteChannel` job occurs. -/
theorem Save_Update_open_dispatch {σ : Type} (CHANNEL_OPEN : String)
    (c : SearchChannelStore σ) (channel : Option Channel) (maxChannels : Int) (s s1 : σ)
    (ch : Channel) (hType : ch.ChannelType = CHANNEL_OPEN) :
    (c.ChannelStore.Save channel maxChannels s = ((some ch, none), s1) →
      (Save CHANNEL_OPEN c channel maxChannels s).ret = some (some ch, none) ∧
      (Save CHANNEL_OPEN c channel maxChannels s).trace =
        Event.storeSave channel maxChannels ::
          (c.rootStore.GetActiveEngines.filter fun e => e.IsIndexingEnabled).map
            (fun e => Event.IndexChannel e.handle ch) ∧
      (∀ h, (jobsFor h (Save CHANNEL_OPEN c channel maxChannels s).trace).length =
        (c.rootStore.GetActiveEngines.filter
          fun e => e.IsIndexingEnabled && decide (e.handle = h)).length) ∧
      (∀ h x, Event.DeleteChannel h x ∉ (Save CHANNEL_OPEN c channel maxChannels s).trace)) ∧
    (c.ChannelStore.Update channel s = ((some ch, none), s1) →
      (Update CHANNEL_OPEN c channel s).ret = some (some ch, none) ∧
      (Update CHANNEL_OPEN c channel s).trace =
        Event.storeUpdate channel ::
          (c.rootStore.GetActiveEngines.filter fun e => e.IsIndexingEnabled).map
            (fun e => Event.IndexChannel e.handle ch) ∧
      (∀ h, (jobsFor h (Update CHANNEL_OPEN c channel s).trace).length =
        (c.rootStore.GetActiveEngines.filter
          fun e => e.IsIndexingEnabled && decide (e.handle = h)).length) ∧
      (∀ h x, Event.DeleteChannel h x ∉ (Update CHANNEL_OPEN c channel s).trace)) := by
  constructor
  · intro hs
    have hrun : Save CHANNEL_OPEN c channel maxChannels s =
        ⟨some (some ch, none), s1,
          Event.storeSave channel maxChannels :: indexJobs c.rootStore.GetActiveEngines ch⟩ := by
      simp [Save, hs, indexChannel, hType]
    rw [hrun]
    refine ⟨rfl, ?_, ?_, ?_⟩
    · simp [indexJobs_eq_map]
    · intro h
      have := jobsFor_indexJobs h c.rootStore.GetActiveEngines ch
      simpa [jobsFor, Event.jobEngine] using this
    · intro h x
      simp [indexJobs_eq_map]
  · intro hs
    have hrun : Update CHANNEL_OPEN c channel s =
        ⟨some (some ch, none), s1,
          Event.storeUpdate channel :: indexJobs c.rootStore.GetActiveEngines ch⟩ := by
      simp [Update, hs, indexChannel, hType]
    rw [hrun]
    refine ⟨rfl, ?_, ?_, ?_⟩
    · simp [indexJobs_eq_map]
    · intro h
      have := jobsFor_indexJobs h c.rootStore.GetActiveEngines ch
      simpa [jobsFor, Event.jobEngine] using this
    · intro h x
      simp [indexJobs_eq_map]

theorem Save_Update_open_dispatch_witness :
    townSquare.ChannelType = "O" ∧
    (Save "O" (memLayer [engineA, engineB, engineC, engineA]) (some townSquare) 100 []).trace =
      [Event.storeSave (some townSquare) 100, Event.IndexChannel 1 townSquare,
       Event.IndexChannel 3 townSquare, Event.IndexChannel 1 townSquare] ∧
    (jobsFor 2 (Save "O" (memLayer [engineA, engineB, engineC, engineA]) (some townSquare) 100
      []).trace).length = 0 ∧
    (Update "O" (memLayer [engineA, engineB, engineC, engineA]) (some townSquare)
        [townSquare]).trace =
      [Event.storeUpdate (some townSquare), Event.IndexChannel 1 townSquare,
       Event.IndexChannel 3 townSquare, Event.IndexChannel 1 townSquare] := by
  have hSave := (Save_Update_open_dispatch "O" (memLayer [engineA, engineB, engineC, engineA])
    (some townSquare) 100 [] [townSquare] townSquare rfl).1 rfl
  have hUpdate := (Save_Update_open_dispatch "O" (memLayer [engineA, engineB, engineC, engineA])
    (some townSquare) 100 [townSquare] [townSquare] townSquare rfl).2 (by decide)
  refine ⟨rfl, ?_, ?_, ?_⟩
  · rw [hSave.2.1]; simp [memLayer, engineA, engineB, engineC]
  · rw [hSave.2.2.1 2]; simp [memLayer, engineA, engineB, engineC]
  · rw [hUpdate.2.1]; simp [memLayer, engineA, engineB, engineC]

/-- C3: for a channel whose type is not `CHANNEL_OPEN`, whatever the active engines and
their flags, `indexChannel` and `deleteChannelIndex` start no job; hence a `Save` or
`Update` whose store call hands back such a channel, and a `PermanentDelete` whose
snapshot lookup yields such a channel, make no `IndexChannel` or `DeleteChannel` call on
any engine. -/
theorem nonopen_channel_no_job {σ : Type} (CHANNEL_OPEN : String) (c : SearchChannelStore σ)
    (ch : Channel) (hType : ch.ChannelType ≠ CHANNEL_OPEN) :
    indexChannel CHANNEL_OPEN c (some ch) = some [] ∧
    deleteChannelIndex CHANNEL_OPEN c (some ch) = some [] ∧
    (∀ channel maxChannels s err s1,
      c.ChannelStore.Save channel maxChannels s = ((some ch, err), s1) →
      ∀ ev ∈ (Save CHANNEL_OPEN c channel maxChannels s).trace, ev.isChannelJob = false) ∧
    (∀ channel s err s1,
      c.ChannelStore.Update channel s = ((some ch, err), s1) →
      ∀ ev ∈ (Update CHANNEL_OPEN c channel s).trace, ev.isChannelJob = false) ∧
    (∀ channelId s channelErr,
      c.ChannelStore.Get channelId true s = (some ch, channelErr) →
      ∀ ev ∈ (PermanentDelete CHANNEL_OPEN c channelId s).trace, ev.isChannelJob = false) := by
  have hi : indexChannel CHANNEL_OPEN c (some ch) = some [] := by simp [indexChannel, hType]
  have hd : deleteChannelIndex CHANNEL_OPEN c (some ch) = some [] := by
    simp [deleteChannelIndex, hType]
  refine ⟨hi, hd, ?_, ?_, ?_⟩
  · intro channel maxChannels s err s1 hs ev hev
    cases err <;> simp [Save, hs, hi] at hev <;> simp [hev, Event.isChannelJob]
  · intro channel s err s1 hs ev hev
    cases err <;> simp [Update, hs, hi] at hev <;> simp [hev, Event.isChannelJob]
  · intro channelId s channelErr hg
    rcases hp : c.ChannelStore.PermanentDelete channelId s with ⟨err, s1⟩
    cases err <;> cases channelErr <;>
      simp [PermanentDelete, hg, hp, hd, lookupCalls, Event.isChannelJob]

theorem nonopen_channel_no_job_witness :
    staffRoom.ChannelType ≠ "O" ∧
    indexChannel "O" (memLayer [engineA, engineB, engineC]) (some staffRoom) = some [] ∧
    (Save "O" (memLayer [engineA, engineB, engineC]) (some staffRoom) 100 []).trace =
      [Event.storeSave (some staffRoom) 100] ∧
    (PermanentDelete "O" (memLayer [engineA, engineB, engineC]) "c2" [staffRoom]).trace =
      [Event.storeGet "c2" true, Event.storePermanentDelete "c2"] :=
  ⟨by decide,
   (nonopen_channel_no_job "O" (memLayer [engineA, engineB, engineC]) staffRoom
     (by decide)).1,
   by decide, by decide⟩

/-- C8: when the snapshot lookup `Get(channelId, true)` succeeds with an open channel and
the underlying `PermanentDelete` succeeds, the wrapper returns nil and its trace is the
lookup, then the underlying delete, then exactly one `DeleteChannel` job per
indexing-enabled entry of the active-engine list, each carrying the channel that `Get`
returned in the state before the delete; for every engine `h` the number of jobs handed to
`h` is the number of its indexing-enabled entries, and no `IndexChannel` job occurs. -/
theorem PermanentDelete_open_dispatch {σ : Type} (CHANNEL_OPEN : String)
    (c : SearchChannelStore σ) (channelId : String) (s s1 : σ) (ch : Channel)
    (hGet : c.ChannelStore.Get channelId true s = (some ch, none))
    (hType : ch.ChannelType = CHANNEL_OPEN)
    (hDelete : c.ChannelStore.PermanentDelete channelId s = (none, s1)) :
    (PermanentDelete CHANNEL_OPEN c channelId s).ret = some none ∧
    (PermanentDelete CHANNEL_OPEN c channelId s).state = s1 ∧
    (PermanentDelete CHANNEL_OPEN c channelId s).trace =
      Event.storeGet channelId true :: Event.storePermanentDelete channelId ::
        (c.rootStore.GetActiveEngines.filter fun e => e.IsIndexingEnabled).map
          (fun e => Event.DeleteChannel e.handle ch) ∧
    (∀ h, (jobsFor h (PermanentDelete CHANNEL_OPEN c channelId s).trace).length =
      (c.rootStore.GetActiveEngines.filter
        fun e => e.IsIndexingEnabled && decide (e.handle = h)).length) ∧
    (∀ h x, Event.IndexChannel h x ∉ (PermanentDelete CHANNEL_OPEN c channelId s).trace) := by
  have hrun : PermanentDelete CHANNEL_OPEN c channelId s =
      ⟨some none, s1,
        Event.storeGet channelId true :: Event.storePermanentDelete channelId ::
          deleteJobs c.rootStore.GetActiveEngines ch⟩ := by
    simp [PermanentDelete, hGet, hDelete, deleteChannelIndex, hType, lookupCalls]
  rw [hrun]
  refine ⟨rfl, rfl, ?_, ?_, ?_⟩
  · simp [deleteJobs_eq_map]
  · intro h
    have := jobsFor_deleteJobs h c.rootStore.GetActiveEngines ch
    simpa [jobsFor, Event.jobEngine] using this
  · intro h x
    simp [deleteJobs_eq_map]

theorem PermanentDelete_open_dispatch_witness :
    memStore.Get "c1" true [townSquare, staffRoom] = (some townSquare, none) ∧
    memStore.Get "c1" true [staffRoom] ≠ (some townSquare, none) ∧
    (PermanentDelete "O" (memLayer [engineA, engineB, engineC]) "c1"
        [townSquare, staffRoom]).state = [staffRoom] ∧
    (PermanentDelete "O" (memLayer [engineA, engineB, engineC]) "c1"
        [townSquare, staffRoom]).trace =
      [Event.storeGet "c1" true, Event.storePermanentDelete "c1",
       Event.DeleteChannel 1 townSquare, Event.DeleteChannel 3 townSquare] := by
  have h := PermanentDelete_open_dispatch "O" (memLayer [engineA, engineB, engineC]) "c1"
    [townSquare, staffRoom] [staffRoom] townSquare (by decide) rfl (by decide)
  refine ⟨by decide, by decide, h.2.1, ?_⟩
  rw [h.2.2.1]; simp [memLayer, engineA, engineB, engineC]

/-- C10: when the underlying `RemoveMember` succeeds, the wrapper returns the nil error
and, after the store call, makes exactly one call: the user re-index
`indexUserFromID(userIdToRemove)`; no `IndexChannel` or `DeleteChannel` job is started. -/
theorem RemoveMember_success {σ : Type} (c : SearchChannelStore σ)
    (channelId userIdToRemove : String) (s s1 : σ)
    (hStore : c.ChannelStore.RemoveMember channelId userIdToRemove s = (none, s1)) :
    (RemoveMember c channelId userIdToRemove s).ret = some none ∧
    (RemoveMember c channelId userIdToRemove s).state = s1 ∧
    (RemoveMember c channelId userIdToRemove s).trace =
      [Event.storeRemoveMember channelId userIdToRemove,
       Event.indexUserFromID userIdToRemove] ∧
    (RemoveMember c channelId userIdToRemove s).trace.filter Event.isIndexAction =
      [Event.indexUserFromID userIdToRemove] ∧
    (∀ ev ∈ (RemoveMember c channelId userIdToRemove s).trace, ev.isChannelJob = false) := by
  have hrun : RemoveMember c channelId userIdToRemove s =
      ⟨some none, s1,
        [Event.storeRemoveMember channelId userIdToRemove,
         Event.indexUserFromID userIdToRemove]⟩ := by
    simp [RemoveMember, hStore]
  rw [hrun]
  refine ⟨rfl, rfl, rfl, ?_, ?_⟩
  · simp [List.filter, Event.isIndexAction]
  · intro ev hev
    simp at hev
    rcases hev with h | h <;> simp [h, Event.isChannelJob]

theorem RemoveMember_success_witness :
    memStore.RemoveMember "c1" "u7" [townSquare] = (none, [townSquare]) ∧
    (RemoveMember (memLayer [engineA, engineB, engineC]) "c1" "u7" [townSquare]).trace =
      [Event.storeRemoveMember "c1" "u7", Event.indexUserFromID "u7"] :=
  ⟨rfl, (RemoveMember_success (memLayer [engineA, engineB, engineC]) "c1" "u7"
    [townSquare] [townSquare] rfl).2.2.1⟩

/-! ## Lemmas on the autocompletion loop -/

theorem appendChannels_eq_filter (channelList : ChannelList) (channels : List Channel)
    (includeDeleted : Bool) :
    appendChannels channelList channels includeDeleted =
      channelList ++ channels.filter fun ch => !(decide (ch.DeleteAt > 0) && !includeDeleted) := by
  induction channels generalizing channelList with
  | nil => simp [appendChannels]
  | cons ch rest ih =>
    by_cases h : (decide (ch.DeleteAt > 0) && !includeDeleted) = true
    · rw [appendChannels, if_pos h, ih, List.filter_cons, h]
      rfl
    · simp only [Bool.not_eq_true] at h
      rw [appendChannels, if_neg (by rw [h]; decide), ih, List.filter_cons, h,
        List.append_assoc]
      rfl

theorem searchedEngines_append (t u : List Event) :
    searchedEngines (t ++ u) = searchedEngines t ++ searchedEngines u := by
  simp [searchedEngines, List.filterMap_append]

theorem esAutocompleteChannels_searched {σ : Type} (c : SearchChannelStore σ)
    (engine : SearchEngine) (teamId term : String) (includeDeleted : Bool) (s : σ) :
    searchedEngines (esAutocompleteChannels c engine teamId term includeDeleted s).2 =
      [engine.handle] := by
  unfold esAutocompleteChannels
  split
  · simp [searchedEngines]
  · split
    · split <;> simp [searchedEngines]
    · simp [searchedEngines]

theorem esAutocompleteChannels_no_store_autocomplete {σ : Type} (c : SearchChannelStore σ)
    (engine : SearchEngine) (teamId term : String) (includeDeleted : Bool) (s : σ) :
    (esAutocompleteChannels c engine teamId term includeDeleted s).2.filter
      Event.isStoreAutocomplete = [] := by
  unfold esAutocompleteChannels
  split
  · simp [Event.isStoreAutocomplete]
  · split
    · split <;> simp [Event.isStoreAutocomplete]
    · simp [Event.isStoreAutocomplete]

theorem failedAttempts_searched {σ : Type} (c : SearchChannelStore σ)
    (engines : List SearchEngine) (teamId term : String) (includeDeleted : Bool) (s : σ) :
    searchedEngines (failedAttempts c engines teamId term includeDeleted s) =
      (engines.filter fun e => e.IsAutocompletionEnabled).map fun e => e.handle := by
  induction engines with
  | nil => rfl
  | cons e rest ih =>
    cases h : e.IsAutocompletionEnabled
    · simpa [failedAttempts, h] using ih
    · have hlog : searchedEngines
          (autocompleteFailureLog :: failedAttempts c rest teamId term includeDeleted s) =
          searchedEngines (failedAttempts c rest teamId term includeDeleted s) := by
        simp [searchedEngines, autocompleteFailureLog]
      simp [failedAttempts, h, searchedEngines_append, esAutocompleteChannels_searched, hlog, ih]

theorem failedAttempts_no_store_autocomplete {σ : Type} (c : SearchChannelStore σ)
    (engines : List SearchEngine) (teamId term : String) (includeDeleted : Bool) (s : σ) :
    (failedAttempts c engines teamId term includeDeleted s).filter
      Event.isStoreAutocomplete = [] := by
  induction engines with
  | nil => rfl
  | cons e rest ih =>
    cases h : e.IsAutocompletionEnabled
    · simpa [failedAttempts, h] using ih
    · have hlog : Event.isStoreAutocomplete autocompleteFailureLog = false := rfl
      simp only [failedAttempts, h, if_true, List.filter_append, List.filter_cons, hlog,
        esAutocompleteChannels_no_store_autocomplete, ih]
      simp

/-- Going through engines whose attempts all fail leaves the loop where it would be on
the remaining engines, with the failed attempts in front of its calls. -/
theorem autocompleteLoop_skip_failed {σ : Type} (c : SearchChannelStore σ)
    (pre rest : List SearchEngine) (teamId term : String) (includeDeleted : Bool) (s : σ)
    (hPre : ∀ x ∈ pre, x.IsAutocompletionEnabled = true →
      (esAutocompleteChannels c x teamId term includeDeleted s).1.2 ≠ none)
    (channelList : Option ChannelList) (err : Option AppError) :
    ∃ channelList1 err1,
      autocompleteLoop c (pre ++ rest) teamId term includeDeleted s channelList err =
        ((autocompleteLoop c rest teamId term includeDeleted s channelList1 err1).1,
          failedAttempts c pre teamId term includeDeleted s ++
            (autocompleteLoop c rest teamId term includeDeleted s channelList1 err1).2) := by
  induction pre generalizing channelList err with
  | nil => exact ⟨channelList, err, by simp [failedAttempts]⟩
  | cons x pre ih =>
    have hPre1 : ∀ y ∈ pre, y.IsAutocompletionEnabled = true →
        (esAutocompleteChannels c y teamId term includeDeleted s).1.2 ≠ none :=
      fun y hy => hPre y (List.mem_cons_of_mem _ hy)
    cases hx : x.IsAutocompletionEnabled
    · obtain ⟨cl1, e1, h1⟩ := ih hPre1 channelList err
      exact ⟨cl1, e1, by simp [autocompleteLoop, failedAttempts, hx, h1]⟩
    · have hfail := hPre x (List.mem_cons_self _ _) hx
      rcases hes : esAutocompleteChannels c x teamId term includeDeleted s with ⟨⟨cl, e⟩, calls⟩
      rw [hes] at hfail
      cases e with
      | none => exact absurd rfl hfail
      | some e0 =>
        obtain ⟨cl1, e1, h1⟩ := ih hPre1 cl (some e0)
        exact ⟨cl1, e1, by simp [autocompleteLoop, failedAttempts, hx, hes, h1]⟩

/-- What `AutocompleteInTeam` makes of the loop's outcome does not depend on the values
of `channelList` and `err` the loop was entered with. -/
theorem autocompleteLoop_entry_irrelevant {σ : Type} (c : SearchChannelStore σ)
    (engines : List SearchEngine) (teamId term : String) (includeDeleted : Bool) (s : σ)
    (cl1 cl2 : Option ChannelList) (e1 e2 : Option AppError) :
    (autocompleteLoop c engines teamId term includeDeleted s cl1 e1).2 =
      (autocompleteLoop c engines teamId term includeDeleted s cl2 e2).2 ∧
    (autocompleteLoop c engines teamId term includeDeleted s cl1 e1).1.1 =
      (autocompleteLoop c engines teamId term includeDeleted s cl2 e2).1.1 ∧
    ((autocompleteLoop c engines teamId term includeDeleted s cl1 e1).1.1 = false →
      (autocompleteLoop c engines teamId term includeDeleted s cl1 e1).1.2 =
        (autocompleteLoop c engines teamId term includeDeleted s cl2 e2).1.2) := by
  induction engines generalizing cl1 cl2 e1 e2 with
  | nil => simp [autocompleteLoop]
  | cons x rest ih =>
    cases hx : x.IsAutocompletionEnabled
    · simpa [autocompleteLoop, hx] using ih cl1 cl2 e1 e2
    · rcases hes : esAutocompleteChannels c x teamId term includeDeleted s with ⟨⟨cl, e⟩, calls⟩
      cases e <;> simp [autocompleteLoop, hx, hes]

/-! ## Routing of `AutocompleteInTeam` -/

/-- The run of `AutocompleteInTeam` when `e` is the first autocompletion-enabled engine
whose attempt has no error. -/
theorem AutocompleteInTeam_of_first_success {σ : Type} (c : SearchChannelStore σ)
    (teamId term : String) (includeDeleted : Bool) (s : σ) (pre post : List SearchEngine)
    (e : SearchEngine) (hEngines : c.rootStore.GetActiveEngines = pre ++ e :: post)
    (hPre : ∀ x ∈ pre, x.IsAutocompletionEnabled = true →
      (esAutocompleteChannels c x teamId term includeDeleted s).1.2 ≠ none)
    (hEnabled : e.IsAutocompletionEnabled = true)
    (hOk : (esAutocompleteChannels c e teamId term includeDeleted s).1.2 = none) :
    AutocompleteInTeam c teamId term includeDeleted s =
      ⟨some (esAutocompleteChannels c e teamId term includeDeleted s).1, s,
        failedAttempts c pre teamId term includeDeleted s ++
          (esAutocompleteChannels c e teamId term includeDeleted s).2⟩ := by
  obtain ⟨cl1, e1, hloop⟩ := autocompleteLoop_skip_failed c pre (e :: post) teamId term
    includeDeleted s hPre none none
  rcases hes : esAutocompleteChannels c e teamId term includeDeleted s with ⟨⟨cl, err⟩, calls⟩
  rw [hes] at hOk
  simp only at hOk
  subst hOk
  have hhead : autocompleteLoop c (e :: post) teamId term includeDeleted s cl1 e1 =
      ((false, cl, none), calls) := by
    simp [autocompleteLoop, hEnabled, hes]
  rw [hhead] at hloop
  simp [AutocompleteInTeam, hEngines, hloop]

/-- The run of `AutocompleteInTeam` when no autocompletion-enabled engine's attempt is
free of error. -/
theorem AutocompleteInTeam_of_all_failed {σ : Type} (c : SearchChannelStore σ)
    (teamId term : String) (includeDeleted : Bool) (s : σ)
    (hAll : ∀ x ∈ c.rootStore.GetActiveEngines, x.IsAutocompletionEnabled = true →
      (esAutocompleteChannels c x teamId term includeDeleted s).1.2 ≠ none) :
    AutocompleteInTeam c teamId term includeDeleted s =
      ⟨some
        (match (c.ChannelStore.AutocompleteInTeam teamId term includeDeleted s).2 with
          | none => (c.ChannelStore.AutocompleteInTeam teamId term includeDeleted s).1
          | some _ => none,
         (c.ChannelStore.AutocompleteInTeam teamId term includeDeleted s).2), s,
        failedAttempts c c.rootStore.GetActiveEngines teamId term includeDeleted s ++
          [Event.storeAutocompleteInTeam teamId term includeDeleted]⟩ := by
  obtain ⟨cl1, e1, hloop⟩ := autocompleteLoop_skip_failed c c.rootStore.GetActiveEngines []
    teamId term includeDeleted s hAll none none
  rw [List.append_nil] at hloop
  rcases hn : c.ChannelStore.AutocompleteInTeam teamId term includeDeleted s with ⟨cl, err⟩
  cases err <;> simp [AutocompleteInTeam, hloop, autocompleteLoop, hn]

/-- C4: if some autocompletion-enabled engine of the active list has an attempt without
error, the list splits as `pre ++ e :: post` with `e` the first such engine; the wrapper
returns the pair `e`'s attempt produced (whatever list it holds, the empty one included),
`SearchChannels` was invoked exactly on the autocompletion-enabled engines of `pre`, each
of which errored, and then on `e` (on no disabled engine and on none of `post`), and the
store's own `AutocompleteInTeam` was not called. -/
theorem AutocompleteInTeam_first_success {σ : Type} (c : SearchChannelStore σ)
    (teamId term : String) (includeDeleted : Bool) (s : σ)
    (hSome : ∃ x ∈ c.rootStore.GetActiveEngines, x.IsAutocompletionEnabled = true ∧
      (esAutocompleteChannels c x teamId term includeDeleted s).1.2 = none) :
    ∃ pre e post,
      c.rootStore.GetActiveEngines = pre ++ e :: post ∧
      e.IsAutocompletionEnabled = true ∧
      (esAutocompleteChannels c e teamId term includeDeleted s).1.2 = none ∧
      (∀ x ∈ pre, x.IsAutocompletionEnabled = true →
        (esAutocompleteChannels c x teamId term includeDeleted s).1.2 ≠ none) ∧
      (AutocompleteInTeam c teamId term includeDeleted s).ret =
        some (esAutocompleteChannels c e teamId term includeDeleted s).1 ∧
      searchedEngines (AutocompleteInTeam c teamId term includeDeleted s).trace =
        ((pre.filter fun x => x.IsAutocompletionEnabled).map fun x => x.handle) ++ [e.handle] ∧
      (AutocompleteInTeam c teamId term includeDeleted s).trace.filter
        Event.isStoreAutocomplete = [] := by
  obtain ⟨x, hx, hxe, hxo⟩ := hSome
  cases hf : c.rootStore.GetActiveEngines.find? fun y =>
      y.IsAutocompletionEnabled &&
        decide ((esAutocompleteChannels c y teamId term includeDeleted s).1.2 = none) with
  | none =>
    rw [List.find?_eq_none] at hf
    exact absurd (by simp [hxe, hxo]) (hf x hx)
  | some e =>
    rw [List.find?_eq_some] at hf
    obtain ⟨he, pre, post, hsplit, hpre⟩ := hf
    simp only [Bool.and_eq_true, decide_eq_true_eq] at he
    have hPre : ∀ y ∈ pre, y.IsAutocompletionEnabled = true →
        (esAutocompleteChannels c y teamId term includeDeleted s).1.2 ≠ none := by
      intro y hy hye hyo
      have := hpre y hy
      simp [hye, hyo] at this
    have hrun := AutocompleteInTeam_of_first_success c teamId term includeDeleted s pre post e
      hsplit hPre he.1 he.2
    refine ⟨pre, e, post, hsplit, he.1, he.2, hPre, ?_, ?_, ?_⟩
    · rw [hrun]
    · rw [hrun]
      simp [searchedEngines_append, failedAttempts_searched, esAutocompleteChannels_searched]
    · rw [hrun]
      simp [List.filter_append, failedAttempts_no_store_autocomplete,
        esAutocompleteChannels_no_store_autocomplete]

theorem AutocompleteInTeam_first_success_witness :
    (∃ x ∈ (memLayer [engineB, engineC, engineA, engineB]).rootStore.GetActiveEngines,
      x.IsAutocompletionEnabled = true ∧
      (esAutocompleteChannels (memLayer [engineB, engineC, engineA, engineB]) x "t1" "to" false
        [townSquare, staffRoom]).1.2 = none) ∧
    (AutocompleteInTeam (memLayer [engineB, engineC, engineA, engineB]) "t1" "to" false
      [townSquare, staffRoom]).ret = some (some [townSquare, staffRoom], none) ∧
    searchedEngines (AutocompleteInTeam (memLayer [engineB, engineC, engineA, engineB]) "t1" "to"
      false [townSquare, staffRoom]).trace = [2, 1] ∧
    ∃ pre e post,
      [engineB, engineC, engineA, engineB] = pre ++ e :: post ∧
      (AutocompleteInTeam (memLayer [engineB, engineC, engineA, engineB]) "t1" "to" false
        [townSquare, staffRoom]).ret =
        some (esAutocompleteChannels (memLayer [engineB, engineC, engineA, engineB]) e "t1" "to"
          false [townSquare, staffRoom]).1 := by
  have hSome : ∃ x ∈ (memLayer [engineB, engineC, engineA, engineB]).rootStore.GetActiveEngines,
      x.IsAutocompletionEnabled = true ∧
      (esAutocompleteChannels (memLayer [engineB, engineC, engineA, engineB]) x "t1" "to" false
        [townSquare, staffRoom]).1.2 = none :=
    ⟨engineA, by simp [memLayer], rfl, by decide⟩
  obtain ⟨pre, e, post, h1, -, -, -, h5, -, -⟩ :=
    AutocompleteInTeam_first_success (memLayer [engineB, engineC, engineA, engineB]) "t1" "to"
      false [townSquare, staffRoom] hSome
  exact ⟨hSome, by decide, by decide, pre, e, post, h1, h5⟩

theorem esAutocompleteChannels_withEngines {σ : Type} (c : SearchChannelStore σ)
    (l : List SearchEngine) (x : SearchEngine) (teamId term : String) (includeDeleted : Bool)
    (s : σ) :
    esAutocompleteChannels (c.withEngines l) x teamId term includeDeleted s =
      esAutocompleteChannels c x teamId term includeDeleted s := rfl

theorem autocompleteLoop_withEngines {σ : Type} (c : SearchChannelStore σ)
    (l engines : List SearchEngine) (teamId term : String) (includeDeleted : Bool) (s : σ)
    (channelList : Option ChannelList) (err : Option AppError) :
    autocompleteLoop (c.withEngines l) engines teamId term includeDeleted s channelList err =
      autocompleteLoop c engines teamId term includeDeleted s channelList err := by
  induction engines generalizing channelList err with
  | nil => rfl
  | cons x rest ih =>
    cases hx : x.IsAutocompletionEnabled
    · simp [autocompleteLoop, hx, ih]
    · rcases hes : esAutocompleteChannels c x teamId term includeDeleted s with ⟨⟨cl, e⟩, calls⟩
      cases e <;> simp [autocompleteLoop, hx, esAutocompleteChannels_withEngines, hes, ih]

/-- Engines whose attempts all fail are passed over: the wrapper returns what it returns
on the remaining engines, after the calls of the failed attempts. -/
theorem AutocompleteInTeam_skip_failed {σ : Type} (c : SearchChannelStore σ)
    (teamId term : String) (includeDeleted : Bool) (s : σ) (pre post : List SearchEngine)
    (hEngines : c.rootStore.GetActiveEngines = pre ++ post)
    (hPre : ∀ x ∈ pre, x.IsAutocompletionEnabled = true →
      (esAutocompleteChannels c x teamId term includeDeleted s).1.2 ≠ none) :
    AutocompleteInTeam c teamId term includeDeleted s =
      ⟨(AutocompleteInTeam (c.withEngines post) teamId term includeDeleted s).ret, s,
        failedAttempts c pre teamId term includeDeleted s ++
          (AutocompleteInTeam (c.withEngines post) teamId term includeDeleted s).trace⟩ := by
  obtain ⟨cl1, e1, hloop⟩ := autocompleteLoop_skip_failed c pre post teamId term
    includeDeleted s hPre none none
  obtain ⟨h1, h2, h3⟩ := autocompleteLoop_entry_irrelevant c post teamId term includeDeleted s
    cl1 none e1 none
  have hpost : (c.withEngines post).rootStore.GetActiveEngines = post := rfl
  have hstore : (c.withEngines post).ChannelStore = c.ChannelStore := rfl
  rcases hL1 : autocompleteLoop c post teamId term includeDeleted s cl1 e1 with
    ⟨⟨b1, p1, q1⟩, t1⟩
  rcases hL0 : autocompleteLoop c post teamId term includeDeleted s none none with
    ⟨⟨b0, p0, q0⟩, t0⟩
  rw [hL1, hL0] at h1 h2 h3
  simp only at h1 h2 h3
  subst h1 h2
  rw [hL1] at hloop
  unfold AutocompleteInTeam
  rw [hEngines, hloop, hpost, autocompleteLoop_withEngines, hL0, hstore]
  cases b1 with
  | true =>
    rcases hn : c.ChannelStore.AutocompleteInTeam teamId term includeDeleted s with ⟨cl, err⟩
    cases err <;> simp
  | false =>
    have := h3 rfl
    simp only [Prod.mk.injEq] at this
    obtain ⟨rfl, rfl⟩ := this
    simp

/-- C5 (as amended): when no active engine is autocompletion-enabled, or every
autocompletion-enabled engine's attempt errors, the wrapper calls the store's own
`AutocompleteInTeam` exactly once, with the same `teamId`, `term` and `includeDeleted`,
and returns that call's error; it returns that call's list when the error is nil, and a
nil list when the error is not nil. -/
theorem AutocompleteInTeam_fallback {σ : Type} (c : SearchChannelStore σ)
    (teamId term : String) (includeDeleted : Bool) (s : σ)
    (hAll : ∀ x ∈ c.rootStore.GetActiveEngines, x.IsAutocompletionEnabled = true →
      (esAutocompleteChannels c x teamId term includeDeleted s).1.2 ≠ none) :
    (AutocompleteInTeam c teamId term includeDeleted s).trace.filter Event.isStoreAutocomplete =
      [Event.storeAutocompleteInTeam teamId term includeDeleted] ∧
    (AutocompleteInTeam c teamId term includeDeleted s).ret.map Prod.snd =
      some (c.ChannelStore.AutocompleteInTeam teamId term includeDeleted s).2 ∧
    ((c.ChannelStore.AutocompleteInTeam teamId term includeDeleted s).2 = none →
      (AutocompleteInTeam c teamId term includeDeleted s).ret =
        some (c.ChannelStore.AutocompleteInTeam teamId term includeDeleted s)) ∧
    ((c.ChannelStore.AutocompleteInTeam teamId term includeDeleted s).2 ≠ none →
      (AutocompleteInTeam c teamId term includeDeleted s).ret =
        some (none, (c.ChannelStore.AutocompleteInTeam teamId term includeDeleted s).2)) := by
  rw [AutocompleteInTeam_of_all_failed c teamId term includeDeleted s hAll]
  rcases hn : c.ChannelStore.AutocompleteInTeam teamId term includeDeleted s with ⟨cl, err⟩
  refine ⟨?_, ?_, ?_, ?_⟩
  · simp [List.filter_append, failedAttempts_no_store_autocomplete, Event.isStoreAutocomplete]
  · simp
  · intro h
    simp only at h
    subst h
    rfl
  · intro h
    cases err with
    | none => exact absurd rfl h
    | some e => rfl

theorem AutocompleteInTeam_fallback_witness :
    (∀ x ∈ (memLayer [engineB, engineC]).rootStore.GetActiveEngines,
      x.IsAutocompletionEnabled = true →
      (esAutocompleteChannels (memLayer [engineB, engineC]) x "t1" "to" false
        [townSquare, archived]).1.2 ≠ none) ∧
    (AutocompleteInTeam (memLayer [engineB, engineC]) "t1" "to" false
      [townSquare, archived]).ret = some (some [townSquare], none) ∧
    (AutocompleteInTeam (memLayer [engineB, engineC]) "t1" "to" false
      [townSquare, archived]).trace.filter Event.isStoreAutocomplete =
      [Event.storeAutocompleteInTeam "t1" "to" false] := by
  have hAll : ∀ x ∈ (memLayer [engineB, engineC]).rootStore.GetActiveEngines,
      x.IsAutocompletionEnabled = true →
      (esAutocompleteChannels (memLayer [engineB, engineC]) x "t1" "to" false
        [townSquare, archived]).1.2 ≠ none := by
    intro x hx
    simp only [memLayer, List.mem_cons, List.mem_singleton, List.not_mem_nil, or_false] at hx
    rcases hx with rfl | rfl
    · intro _; decide
    · intro h; exact absurd h (by decide)
  have h := AutocompleteInTeam_fallback (memLayer [engineB, engineC]) "t1" "to" false
    [townSquare, archived] hAll
  exact ⟨hAll, by decide, h.1⟩

/-- C5, as stated, fails: with no autocompletion-enabled engine and a store whose own
`AutocompleteInTeam` hands back a list together with an error, the wrapper returns a nil
list with the error, not the list of that call. -/
theorem fallback_drops_store_list :
    (∀ x ∈ (layerOver lossyStore [engineC]).rootStore.GetActiveEngines,
      x.IsAutocompletionEnabled = false) ∧
    lossyStore.AutocompleteInTeam "t1" "to" false [townSquare] =
      (some [townSquare], some ⟨"store.sql_channel.autocomplete_in_team.app_error"⟩) ∧
    (AutocompleteInTeam (layerOver lossyStore [engineC]) "t1" "to" false [townSquare]).ret =
      some (none, some ⟨"store.sql_channel.autocomplete_in_team.app_error"⟩) ∧
    (AutocompleteInTeam (layerOver lossyStore [engineC]) "t1" "to" false [townSquare]).ret ≠
      some (lossyStore.AutocompleteInTeam "t1" "to" false [townSquare]) := by
  refine ⟨?_, by decide, by decide, by decide⟩
  intro x hx
  simp only [layerOver, List.mem_singleton] at hx
  subst hx
  rfl

/-- C6 (as amended): when an engine `e` that the loop reaches is autocompletion-enabled,
its `SearchChannels` succeeds with a non-empty identifier list and the batch fetch
`GetChannelsByIds` for those identifiers fails, `esAutocompleteChannels` returns that
error unchanged to `AutocompleteInTeam`, which treats it as a failed engine attempt: the
caller receives what the wrapper returns on the engines after `e` (the next engine that
succeeds, or else the store's own `AutocompleteInTeam`), after the calls of the failed
attempts. -/
theorem fetch_error_falls_through {σ : Type} (c : SearchChannelStore σ)
    (teamId term : String) (includeDeleted : Bool) (s : σ) (pre post : List SearchEngine)
    (e : SearchEngine) (channelIds : List String) (channels : List Channel)
    (fetchErr : AppError)
    (hEngines : c.rootStore.GetActiveEngines = pre ++ e :: post)
    (hPre : ∀ x ∈ pre, x.IsAutocompletionEnabled = true →
      (esAutocompleteChannels c x teamId term includeDeleted s).1.2 ≠ none)
    (hEnabled : e.IsAutocompletionEnabled = true)
    (hSearch : e.SearchChannels teamId term = (channelIds, none))
    (hIds : channelIds ≠ [])
    (hFetch : c.ChannelStore.GetChannelsByIds channelIds s = (channels, some fetchErr)) :
    esAutocompleteChannels c e teamId term includeDeleted s =
      ((none, some fetchErr),
        [Event.SearchChannels e.handle teamId term, Event.storeGetChannelsByIds channelIds]) ∧
    (AutocompleteInTeam c teamId term includeDeleted s).ret =
      (AutocompleteInTeam (c.withEngines post) teamId term includeDeleted s).ret ∧
    (AutocompleteInTeam c teamId term includeDeleted s).trace =
      failedAttempts c (pre ++ [e]) teamId term includeDeleted s ++
        (AutocompleteInTeam (c.withEngines post) teamId term includeDeleted s).trace := by
  have hlen : channelIds.length > 0 := List.length_pos.mpr hIds
  have hattempt : esAutocompleteChannels c e teamId term includeDeleted s =
      ((none, some fetchErr),
        [Event.SearchChannels e.handle teamId term, Event.storeGetChannelsByIds channelIds]) := by
    simp [esAutocompleteChannels, hSearch, hlen, hFetch]
  have hPre1 : ∀ x ∈ pre ++ [e], x.IsAutocompletionEnabled = true →
      (esAutocompleteChannels c x teamId term includeDeleted s).1.2 ≠ none := by
    intro x hx hxe
    rcases List.mem_append.mp hx with h | h
    · exact hPre x h hxe
    · rw [List.mem_singleton] at h
      subst h
      rw [hattempt]
      simp
  have hsplit : c.rootStore.GetActiveEngines = (pre ++ [e]) ++ post := by
    rw [hEngines]; simp
  have hrun := AutocompleteInTeam_skip_failed c teamId term includeDeleted s
    (pre ++ [e]) post hsplit hPre1
  refine ⟨hattempt, ?_, ?_⟩
  · rw [hrun]
  · rw [hrun]

theorem fetch_error_falls_through_witness :
    engineA.SearchChannels "t1" "to" = (["c1", "c2"], none) ∧
    fetchFailStore.GetChannelsByIds ["c1", "c2"] [townSquare, staffRoom] =
      ([], some ⟨"store.sql_channel.get_channels_by_ids.app_error"⟩) ∧
    (AutocompleteInTeam (layerOver fetchFailStore [engineB, engineA, engineC]) "t1" "to" false
        [townSquare, staffRoom]).ret =
      (AutocompleteInTeam ((layerOver fetchFailStore [engineB, engineA, engineC]).withEngines
        [engineC]) "t1" "to" false [townSquare, staffRoom]).ret ∧
    (AutocompleteInTeam ((layerOver fetchFailStore [engineB, engineA, engineC]).withEngines
        [engineC]) "t1" "to" false [townSquare, staffRoom]).ret =
      some (some [townSquare, staffRoom], none) := by
  have h := fetch_error_falls_through (layerOver fetchFailStore [engineB, engineA, engineC])
    "t1" "to" false [townSquare, staffRoom] [engineB] [engineC] engineA ["c1", "c2"] []
    ⟨"store.sql_channel.get_channels_by_ids.app_error"⟩ rfl
    (by
      intro x hx _
      rw [List.mem_singleton] at hx
      subst hx
      decide)
    rfl rfl (by decide) rfl
  exact ⟨rfl, rfl, h.2.1, by decide⟩

/-- C6, as stated, fails: the only engine's `SearchChannels` succeeds with
`["c1", "c2"]`, the batch fetch for them fails, and the caller of `AutocompleteInTeam`
receives the result of the store's own `AutocompleteInTeam` with a nil error, not the
fetch error. -/
theorem fetch_error_not_returned :
    engineA.IsAutocompletionEnabled = true ∧
    engineA.SearchChannels "t1" "to" = (["c1", "c2"], none) ∧
    fetchFailStore.GetChannelsByIds ["c1", "c2"] [townSquare, staffRoom] =
      ([], some ⟨"store.sql_channel.get_channels_by_ids.app_error"⟩) ∧
    (AutocompleteInTeam (layerOver fetchFailStore [engineA]) "t1" "to" false
        [townSquare, staffRoom]).ret = some (some [townSquare, staffRoom], none) ∧
    (AutocompleteInTeam (layerOver fetchFailStore [engineA]) "t1" "to" false
        [townSquare, staffRoom]).trace =
      [Event.SearchChannels 1 "t1" "to", Event.storeGetChannelsByIds ["c1", "c2"],
       autocompleteFailureLog, Event.storeAutocompleteInTeam "t1" "to" false] := by
  refine ⟨rfl, rfl, rfl, by decide, by decide⟩

/-! ## Resolution of the engine's identifiers -/

/-- C7 (as amended): when the engine's `SearchChannels` succeeds, `esAutocompleteChannels`
returns an empty list without calling the store if the identifier list is empty;
otherwise, when `GetChannelsByIds` succeeds, it returns, in the order the store gave
them, all fetched channels if `includeDeleted` is true and exactly the fetched channels
whose `DeleteAt` is not greater than zero if it is false (these are the channels with
`DeleteAt` equal to zero when no fetched channel has a negative `DeleteAt`). -/
theorem esAutocompleteChannels_resolve {σ : Type} (c : SearchChannelStore σ)
    (e : SearchEngine) (teamId term : String) (includeDeleted : Bool) (s : σ)
    (channelIds : List String) (hSearch : e.SearchChannels teamId term = (channelIds, none)) :
    (channelIds = [] →
      esAutocompleteChannels c e teamId term includeDeleted s =
        ((some [], none), [Event.SearchChannels e.handle teamId term])) ∧
    (∀ channels, channelIds ≠ [] →
      c.ChannelStore.GetChannelsByIds channelIds s = (channels, none) →
      (esAutocompleteChannels c e teamId term includeDeleted s).2 =
        [Event.SearchChannels e.handle teamId term, Event.storeGetChannelsByIds channelIds] ∧
      (includeDeleted = true →
        (esAutocompleteChannels c e teamId term includeDeleted s).1 = (some channels, none)) ∧
      (includeDeleted = false →
        (esAutocompleteChannels c e teamId term includeDeleted s).1 =
          (some (channels.filter fun ch => decide (ch.DeleteAt ≤ 0)), none)) ∧
      (includeDeleted = false → (∀ ch ∈ channels, 0 ≤ ch.DeleteAt) →
        (esAutocompleteChannels c e teamId term includeDeleted s).1 =
          (some (channels.filter fun ch => decide (ch.DeleteAt = 0)), none))) := by
  constructor
  · intro h
    subst h
    simp [esAutocompleteChannels, hSearch]
  · intro channels hIds hFetch
    have hlen : channelIds.length > 0 := List.length_pos.mpr hIds
    have hrun : esAutocompleteChannels c e teamId term includeDeleted s =
        ((some (channels.filter fun ch => !(decide (ch.DeleteAt > 0) && !includeDeleted)), none),
          [Event.SearchChannels e.handle teamId term,
           Event.storeGetChannelsByIds channelIds]) := by
      simp [esAutocompleteChannels, hSearch, hlen, hFetch, appendChannels_eq_filter]
    rw [hrun]
    refine ⟨rfl, ?_, ?_, ?_⟩
    · intro h
      subst h
      simp
    · intro h
      subst h
      simp only [Prod.mk.injEq, Option.some.injEq, and_true]
      apply List.filter_congr
      intro ch _
      by_cases h0 : 0 < ch.DeleteAt
      · simp [h0]
      · simp [h0, not_lt.mp h0]
    · intro h hnonneg
      subst h
      simp only [Prod.mk.injEq, Option.some.injEq, and_true]
      apply List.filter_congr
      intro ch hch
      have := hnonneg ch hch
      simp only [Bool.not_false, Bool.and_true, gt_iff_lt]
      by_cases h0 : ch.DeleteAt = 0
      · simp [h0]
      · have : 0 < ch.DeleteAt := lt_of_le_of_ne this (Ne.symm h0)
        simp [h0, this]

theorem esAutocompleteChannels_resolve_witness :
    engineA.SearchChannels "t1" "to" = (["c1", "c2"], none) ∧
    memStore.GetChannelsByIds ["c1", "c2"] [townSquare, archived] =
      ([townSquare, archived], none) ∧
    (esAutocompleteChannels (memLayer [engineA]) engineA "t1" "to" false
      [townSquare, archived]).1 = (some [townSquare], none) ∧
    (esAutocompleteChannels (memLayer [engineA]) engineA "t1" "to" true
      [townSquare, archived]).1 = (some [townSquare, archived], none) := by
  have hf := ((esAutocompleteChannels_resolve (memLayer [engineA]) engineA "t1" "to" false
    [townSquare, archived] ["c1", "c2"] rfl).2 [townSquare, archived] (by decide)
    (by decide)).2.2.1 rfl
  have ht := ((esAutocompleteChannels_resolve (memLayer [engineA]) engineA "t1" "to" true
    [townSquare, archived] ["c1", "c2"] rfl).2 [townSquare, archived] (by decide)
    (by decide)).2.1 rfl
  exact ⟨rfl, by decide, by rw [hf]; decide, ht⟩

/-- C7, as stated, fails: with `includeDeleted` false and a fetched channel whose
`DeleteAt` is `-1`, `esAutocompleteChannels` returns that channel too, although its
`DeleteAt` is not zero. -/
theorem esAutocompleteChannels_keeps_negative_DeleteAt :
    engineA.SearchChannels "t1" "to" = (["c1", "c2"], none) ∧
    memStore.GetChannelsByIds ["c1", "c2"] [townSquare, preEpoch] =
      ([townSquare, preEpoch], none) ∧
    (esAutocompleteChannels (memLayer [engineA]) engineA "t1" "to" false
      [townSquare, preEpoch]).1 = (some [townSquare, preEpoch], none) ∧
    [townSquare, preEpoch].filter (fun ch => decide (ch.DeleteAt = 0)) = [townSquare] ∧
    preEpoch.DeleteAt ≠ 0 := by
  refine ⟨rfl, by decide, by decide, by decide, by decide⟩

/-! ## Failure of the underlying mutation -/

/-- When the underlying call of `Save`, `Update`, `RemoveMember`, `CreateDirectChannel`,
`PermanentDeleteMembersByChannel` or `PermanentDelete` returns an error, the wrapper
returns what the store returned and takes no index action. -/
theorem store_error_no_index_action {σ : Type} (CHANNEL_OPEN : String)
    (c : SearchChannelStore σ) (s s1 : σ) (err : AppError) :
    (∀ channel maxChannels newChannel,
      c.ChannelStore.Save channel maxChannels s = ((newChannel, some err), s1) →
      (Save CHANNEL_OPEN c channel maxChannels s).ret = some (newChannel, some err) ∧
      (Save CHANNEL_OPEN c channel maxChannels s).trace.filter Event.isIndexAction = []) ∧
    (∀ channel updatedChannel,
      c.ChannelStore.Update channel s = ((updatedChannel, some err), s1) →
      (Update CHANNEL_OPEN c channel s).ret = some (updatedChannel, some err) ∧
      (Update CHANNEL_OPEN c channel s).trace.filter Event.isIndexAction = []) ∧
    (∀ channelId userIdToRemove,
      c.ChannelStore.RemoveMember channelId userIdToRemove s = (some err, s1) →
      (RemoveMember c channelId userIdToRemove s).ret = some (some err) ∧
      (RemoveMember c channelId userIdToRemove s).trace.filter Event.isIndexAction = []) ∧
    (∀ user otherUser channel,
      c.ChannelStore.CreateDirectChannel user otherUser s = ((channel, some err), s1) →
      (CreateDirectChannel c user otherUser s).ret = some (channel, some err) ∧
      (CreateDirectChannel c user otherUser s).trace.filter Event.isIndexAction = []) ∧
    (∀ channelId,
      c.ChannelStore.PermanentDeleteMembersByChannel channelId s = (some err, s1) →
      (PermanentDeleteMembersByChannel c channelId s).ret = some (some err) ∧
      (PermanentDeleteMembersByChannel c channelId s).trace.filter Event.isIndexAction = []) ∧
    (∀ channelId,
      c.ChannelStore.PermanentDelete channelId s = (some err, s1) →
      (PermanentDelete CHANNEL_OPEN c channelId s).ret = some (some err) ∧
      (PermanentDelete CHANNEL_OPEN c channelId s).trace.filter Event.isIndexAction = []) := by
  refine ⟨?_, ?_, ?_, ?_, ?_, ?_⟩
  · intro channel maxChannels newChannel h
    simp [Save, h, Event.isIndexAction]
  · intro channel updatedChannel h
    simp [Update, h, Event.isIndexAction]
  · intro channelId userIdToRemove h
    simp [RemoveMember, h, Event.isIndexAction]
  · intro user otherUser channel h
    simp [CreateDirectChannel, h, Event.isIndexAction]
  · intro channelId h
    simp [PermanentDeleteMembersByChannel, h, Event.isIndexAction]
  · intro channelId h
    rcases hg : c.ChannelStore.Get channelId true s with ⟨channel, channelErr⟩
    cases channelErr <;> simp [PermanentDelete, h, hg, lookupCalls, Event.isIndexAction]

/-- What `SaveMember` does when the underlying `SaveMember` returns an error: with a nil
member it stops on the dereference `member.ChannelId`; with a member whose channel lookup
succeeds it re-indexes the channel's creator. -/
theorem SaveMember_on_store_error {σ : Type} (c : SearchChannelStore σ)
    (cm : Option ChannelMember) (s s1 : σ) (err : AppError) :
    (c.ChannelStore.SaveMember cm s = ((none, some err), s1) →
      (SaveMember c cm s).ret = none) ∧
    (∀ m channel, c.ChannelStore.SaveMember cm s = ((some m, some err), s1) →
      c.ChannelStore.Get m.ChannelId true s1 = (some channel, none) →
      (SaveMember c cm s).trace.filter Event.isIndexAction =
        [Event.indexUserFromID channel.CreatorId]) := by
  constructor
  · intro h
    simp [SaveMember, h]
  · intro m channel h hg
    simp [SaveMember, h, hg, Event.isIndexAction]

/-- C1, at `SaveMember`: the underlying `SaveMember` returns a non-nil error.  When it
hands back a nil member, the wrapper stops on a nil dereference and returns no error;
when it hands back the member, the wrapper looks the channel up and re-indexes its
creator, an index action taken although the mutation failed. -/
theorem SaveMember_error_runs_index_step :
    (memberFailStore none).SaveMember (some joinTownSquare) [townSquare] =
      ((none, some ⟨"store.sql_channel.save_member.exists.app_error"⟩), [townSquare]) ∧
    (SaveMember (layerOver (memberFailStore none) [engineA]) (some joinTownSquare)
      [townSquare]).ret = none ∧
    (memberFailStore (some joinTownSquare)).SaveMember (some joinTownSquare) [townSquare] =
      ((some joinTownSquare, some ⟨"store.sql_channel.save_member.exists.app_error"⟩),
        [townSquare]) ∧
    (SaveMember (layerOver (memberFailStore (some joinTownSquare)) [engineA])
      (some joinTownSquare) [townSquare]).ret =
      some (some joinTownSquare, some ⟨"store.sql_channel.save_member.exists.app_error"⟩) ∧
    (SaveMember (layerOver (memberFailStore (some joinTownSquare)) [engineA])
      (some joinTownSquare) [townSquare]).trace =
      [Event.storeSaveMember (some joinTownSquare), Event.storeGet "c1" true,
       Event.indexUserFromID "u1"] := by
  refine ⟨rfl, by decide, rfl, by decide, by decide⟩

/-- What `PermanentDelete` does when the snapshot lookup yields a nil channel and the
underlying delete succeeds: it stops on the dereference `channel.Type` in
`deleteChannelIndex`. -/
theorem PermanentDelete_nil_snapshot {σ : Type} (CHANNEL_OPEN : String)
    (c : SearchChannelStore σ) (channelId : String) (s s1 : σ) (channelErr : Option AppError)
    (hGet : c.ChannelStore.Get channelId true s = (none, channelErr))
    (hDelete : c.ChannelStore.PermanentDelete channelId s = (none, s1)) :
    (PermanentDelete CHANNEL_OPEN c channelId s).ret = none := by
  simp [PermanentDelete, hGet, hDelete, deleteChannelIndex]

/-- C9, at a channel the store does not have: the snapshot lookup fails with a nil
channel, the underlying `PermanentDelete` succeeds, and the wrapper, instead of returning
the nil error, stops on the nil dereference in `deleteChannelIndex`, after the lookup, the
log line and the underlying delete. -/
theorem PermanentDelete_failed_lookup_faults :
    memStore.Get "c1" true [staffRoom] =
      (none, some ⟨"store.sql_channel.get.existing.app_error"⟩) ∧
    memStore.PermanentDelete "c1" [staffRoom] = (none, [staffRoom]) ∧
    (PermanentDelete "O" (memLayer [engineA, engineB]) "c1" [staffRoom]).ret = none ∧
    (PermanentDelete "O" (memLayer [engineA, engineB]) "c1" [staffRoom]).trace =
      [Event.storeGet "c1" true, Event.mlogError "Encountered error deleting channel",
       Event.storePermanentDelete "c1"] := by
  refine ⟨by decide, by decide, by decide, by decide⟩

end searchlayer
